import Mathlib

/-!
Shallow embedding of `src/index.js` (`SpacesClient`, a DigitalOcean Spaces /
CDN convenience client).

Modelling conventions:
* Network and filesystem collaborators (the S3 gateway, the CDN management
  API reached through axios, the local filesystem) are modelled by a `World`
  record of response functions; every client operation returns its result
  together with the list of requests (`Effect`s) it issued, and threads the
  mutable pieces of state explicitly (`ClientState` for the memoized CDN
  endpoint id, `Store` for the bucket contents, `LocalFS` for local files).
* JavaScript string truthiness (`if (x)`) on nullable string fields is
  `strTruthy : Option String → Bool`, which is false on `none` (null /
  undefined) and on `some ""`.
* `Array.prototype.sort` with a numeric comparator `cmp` is modelled by the
  stable `List.mergeSort` with the relation `cmp a b ≤ 0`; since ES2019 the
  JS sort is required to be stable, and a stable sort for a total preorder
  is unique, so this is the faithful model.
* The WHATWG `URL` object is modelled for the URL shapes this client builds
  (`https://host/path` with no userinfo, port, query or fragment, and no
  percent-encoding or dot-segment normalization), as `parseHttpsURL` /
  `hrefOf`.
* `exponential-backoff`'s `backOff` is modelled by `runBackOff` with an
  explicit retry budget (`World.backoffRetries`): run the action, retry
  while it fails and budget remains, surface the last failure.
-/

/-- Errors the client can surface: the two errors thrown by
`getCDNEndpointId` in the source, plus a generic collaborator failure. -/
inductive SpacesError where
  | noAPIToken
  | noCDNEndpointFound (bucket : String)
  | gateway (msg : String)
  deriving DecidableEq, Repr

/-- A request issued to one of the external collaborators. -/
inductive Effect where
  | putObject (bucket key acl : String) (contentType : Option String)
  | listEndpointsReq
  | purgeCacheReq (endpointId : String) (files : List String)
  | listObjectsReq (bucket pathArg : String)
  | deleteObjectsReq (bucket : String) (keys : List String)
  deriving DecidableEq, Repr

/-- A CDN endpoint record as returned by the CDN management gateway. -/
structure CDNEndpoint where
  id : String
  origin : String
  deriving DecidableEq, Repr

/-- An object record as returned by `listObjectsV2` (`data.Contents`). The
fields beyond `Key` and `LastModified` stand for the rest of the record
(size etc.); `LastModified` is the epoch-millisecond value of the JS
`Date` (`getTime()`). -/
structure S3Object where
  Key : String
  LastModified : Int := 0
  Size : Int := 0
  deriving DecidableEq, Repr

/-- An entry produced by `listPathFiles`. -/
structure FileEntry where
  url : String
  lastModified : Int
  deriving DecidableEq, Repr

/-- Constructor configuration of `SpacesClient`. The AWS access keys are
only forwarded to the S3 SDK constructor and never read again, so they are
omitted. `none` models a `null`/absent argument. -/
structure Config where
  endpoint : String
  bucket : String
  digitalOceanAPIToken : Option String := none
  customCdnHost : Option String := none
  deriving DecidableEq, Repr

/-- The mutable field of the client instance: the lazily cached CDN
endpoint id (`this.cdnEndpointId`). -/
structure ClientState where
  cdnEndpointId : Option String := none
  deriving DecidableEq, Repr

/-- The bucket contents, tracked as the list of keys that have been
written (most recent first). -/
structure Store where
  objects : List String := []
  deriving DecidableEq, Repr

/-- Responses of the external collaborators, fixed for the duration of a
call: the CDN endpoint listing, the prefix-listing response, whether a
put / purge request fails, the remote read stream outcome, the
`mime.lookup` table, and the retry budget of the backoff policy. -/
structure World where
  cdnEndpoints : List CDNEndpoint := []
  listObjects : String → List S3Object := fun _ => []
  putError : Option SpacesError := none
  purgeError : Option SpacesError := none
  getObject : String → Except SpacesError String := fun _ => Except.ok ""
  mime : String → Option String := fun _ => none
  backoffRetries : Nat := 9

/-- Options bag of `uploadFile`; the passthrough `spacesOptions` fields are
opaque to the client (forwarded verbatim to the put call) and are not
modelled. -/
structure UploadOptions where
  exponentialBackoff : Bool := false
  purgeCache : Bool := false
  deriving DecidableEq, Repr

/-- Options bag of `listPathFiles`; `sortByDate := none` models an absent
(`undefined`) option. -/
structure ListOptions where
  sortByDate : Option String := none
  pathOnly : Bool := false
  deriving DecidableEq, Repr

/-- JavaScript truthiness of a nullable string: `null`/`undefined` and the
empty string are falsy. -/
def strTruthy : Option String → Bool
  | none => false
  | some s => s != ""

/-- Characters of a string before the first `'.'`; models
`origin.split('.')[0]` (the whole string when there is no dot). -/
def takeUntilDot : List Char → List Char
  | [] => []
  | c :: cs => if c = '.' then [] else c :: takeUntilDot cs

/-- Leading subdomain label of a host string: `origin.split('.')[0]`. -/
def leadingLabel (s : String) : String :=
  ⟨takeUntilDot s.data⟩

/-- getURL: `https://{bucket}.{endpoint}/{path}`. -/
def getURL (cfg : Config) (pathArg : String) : String :=
  "https://" ++ cfg.bucket ++ "." ++ cfg.endpoint ++ "/" ++ pathArg

/-- Components of a parsed URL, as exposed by the WHATWG `URL` object. -/
structure URLRec where
  scheme : String
  host : String
  pathname : String
  deriving DecidableEq, Repr

/-- Strip an expected literal prefix from a character list. -/
def dropPfx : List Char → List Char → Option (List Char)
  | [], s => some s
  | _ :: _, [] => none
  | c :: p, d :: s => if c = d then dropPfx p s else none

/-- Split a character list at the first `'/'`: host characters before it,
path characters from it on. -/
def splitHostPath : List Char → List Char × List Char
  | [] => ([], [])
  | c :: cs =>
    if c = '/' then ([], c :: cs)
    else
      let r := splitHostPath cs
      (c :: r.1, r.2)

/-- Parse an `https://host/path` URL into its components (model of
`new URL(s)` for the shapes built by this client; an empty path reads as
`/`, as the URL object reports). Non-`https://` strings yield a junk
record, never produced by the client. -/
def parseHttpsURL (s : String) : URLRec :=
  match dropPfx "https://".data s.data with
  | none => { scheme := "", host := "", pathname := s }
  | some rest =>
    let hp := splitHostPath rest
    { scheme := "https"
      host := ⟨hp.1⟩
      pathname := if hp.2.isEmpty then "/" else ⟨hp.2⟩ }

/-- Serialization of a parsed URL (`url.href`). -/
def hrefOf (u : URLRec) : String :=
  u.scheme ++ "://" ++ u.host ++ u.pathname

/-- getCDNURL: parse `getURL path`, overwrite the host with the custom CDN
host when one is (truthily) configured and with the literal
`cdn.digitaloceanspaces` otherwise, and serialize back. -/
def getCDNURL (cfg : Config) (pathArg : String) : String :=
  let url := getURL cfg pathArg
  let cdnUrl := parseHttpsURL url
  let newHost :=
    if strTruthy cfg.customCdnHost then cfg.customCdnHost.getD ""
    else "cdn.digitaloceanspaces"
  hrefOf { cdnUrl with host := newHost }

/-- Numeric comparator used by `sortFilesByDate`: descending difference
when `sortByDate === 'DESC'`, ascending difference otherwise. -/
def fileCompare (sortByDate : String) (a b : FileEntry) : Int :=
  if sortByDate == "DESC" then b.lastModified - a.lastModified
  else a.lastModified - b.lastModified

/-- sortFilesByDate: stable sort of the list under the numeric comparator
(`a` may precede `b` iff the comparator is `≤ 0`). -/
def sortFilesByDate (filesList : List FileEntry) (sortByDate : String := "ASC") :
    List FileEntry :=
  filesList.mergeSort (fun a b => decide (fileCompare sortByDate a b ≤ 0))

/-- getCDNEndpointId: fail without a (truthy) API token; return the cached
id when truthy; otherwise fetch the endpoint list and return the id of the
first endpoint whose origin's leading label equals the bucket, caching it;
fail with a not-found error when no endpoint matches. -/
def getCDNEndpointId (cfg : Config) (w : World) (st : ClientState) :
    Except SpacesError String × ClientState × List Effect :=
  if !strTruthy cfg.digitalOceanAPIToken then
    (Except.error SpacesError.noAPIToken, st, [])
  else if strTruthy st.cdnEndpointId then
    (Except.ok (st.cdnEndpointId.getD ""), st, [])
  else
    match w.cdnEndpoints.find? (fun ep => cfg.bucket == leadingLabel ep.origin) with
    | none =>
      (Except.error (SpacesError.noCDNEndpointFound cfg.bucket), st,
        [Effect.listEndpointsReq])
    | some ep =>
      (Except.ok ep.id, { cdnEndpointId := some ep.id }, [Effect.listEndpointsReq])

/-- Two successive `getCDNEndpointId` calls on the same client instance:
both results, the final state, and the concatenated request trace. -/
def getCDNEndpointIdTwice (cfg : Config) (w : World) (st : ClientState) :
    (Except SpacesError String × Except SpacesError String) × ClientState × List Effect :=
  let r1 := getCDNEndpointId cfg w st
  let r2 := getCDNEndpointId cfg w r1.2.1
  ((r1.1, r2.1), r2.2.1, r1.2.2 ++ r2.2.2)

/-- ACL string sent with an upload: `'public'` maps to `'public-read'`,
anything else is passed through literally. -/
def aclOf (permission : String) : String :=
  if permission == "public" then "public-read" else permission

/-- The `makeUpload` closure inside `uploadFile`: put the object (recording
the write on success), then, when `purgeCache` is set, resolve the CDN
endpoint id and issue the purge request; any failure aborts with that
error. On success the CDN URL of the destination is returned. -/
def makeUpload (cfg : Config) (w : World)
    (uploadFilePath destinationPath permission : String) (purgeCache : Bool)
    (store : Store) (st : ClientState) :
    Except SpacesError String × Store × ClientState × List Effect :=
  let putEff := Effect.putObject cfg.bucket destinationPath (aclOf permission)
    (w.mime uploadFilePath)
  match w.putError with
  | some e => (Except.error e, store, st, [putEff])
  | none =>
    let store1 : Store := { objects := destinationPath :: store.objects }
    if purgeCache then
      match getCDNEndpointId cfg w st with
      | (Except.error e, st1, tr) => (Except.error e, store1, st1, putEff :: tr)
      | (Except.ok epId, st1, tr) =>
        let purgeEff := Effect.purgeCacheReq epId [destinationPath]
        match w.purgeError with
        | some e => (Except.error e, store1, st1, putEff :: (tr ++ [purgeEff]))
        | none =>
          (Except.ok (getCDNURL cfg destinationPath), store1, st1,
            putEff :: (tr ++ [purgeEff]))
    else
      (Except.ok (getCDNURL cfg destinationPath), store1, st, [putEff])

/-- Model of the `exponential-backoff` collaborator: run the action; on
failure retry while the budget lasts (delays are irrelevant to the model);
the last attempt's failure is surfaced. -/
def runBackOff
    (f : Store → ClientState → Except SpacesError String × Store × ClientState × List Effect) :
    Nat → Store → ClientState →
      Except SpacesError String × Store × ClientState × List Effect
  | 0, store, st => f store st
  | fuel + 1, store, st =>
    let r := f store st
    match r.1 with
    | Except.error _ =>
      let r2 := runBackOff f fuel r.2.1 r.2.2.1
      (r2.1, r2.2.1, r2.2.2.1, r.2.2.2 ++ r2.2.2.2)
    | Except.ok v => (Except.ok v, r.2.1, r.2.2.1, r.2.2.2)

/-- uploadFile: destructure the flags, then run `makeUpload` once, or under
the backoff policy when `exponentialBackoff` is set. -/
def uploadFile (cfg : Config) (w : World) (store : Store) (st : ClientState)
    (uploadFilePath destinationPath : String) (permission : String := "private")
    (options : UploadOptions := {}) :
    Except SpacesError String × Store × ClientState × List Effect :=
  if options.exponentialBackoff then
    runBackOff
      (makeUpload cfg w uploadFilePath destinationPath permission options.purgeCache)
      w.backoffRetries store st
  else
    makeUpload cfg w uploadFilePath destinationPath permission options.purgeCache
      store st

/-- listPathObjects: single-page prefix listing, returning the gateway's
records verbatim. -/
def listPathObjects (cfg : Config) (w : World) (pathArg : String) :
    List S3Object × List Effect :=
  (w.listObjects pathArg, [Effect.listObjectsReq cfg.bucket pathArg])

/-- listPathFiles: project each listed record to
`{url := pathOnly ? Key : getCDNURL Key, lastModified}` and sort by date
(`sortByDate` defaulting to `'ASC'` when absent). -/
def listPathFiles (cfg : Config) (w : World) (pathArg : String)
    (options : ListOptions := {}) : List FileEntry × List Effect :=
  let lo := listPathObjects cfg w pathArg
  let filesList := lo.1.map (fun o =>
    { url := if options.pathOnly then o.Key else getCDNURL cfg o.Key
      lastModified := o.LastModified : FileEntry })
  (sortFilesByDate filesList (options.sortByDate.getD "ASC"), lo.2)

/-- deleteObjects: one batch-delete request whose key set is the `Key`
field of each record, in order; the gateway is modelled as accepting every
batch delete (its contract treats an empty batch as a no-op). -/
def deleteObjects (cfg : Config) (objects : List S3Object) :
    Except SpacesError Unit × List Effect :=
  (Except.ok (),
    [Effect.deleteObjectsReq cfg.bucket (objects.map (fun o => o.Key))])

/-- deletePaths: wrap each path into a `{Key}` record and batch-delete. -/
def deletePaths (cfg : Config) (paths : List String) :
    Except SpacesError Unit × List Effect :=
  deleteObjects cfg (paths.map (fun p => { Key := p }))

/-- deleteFile: batch-delete of the single `{Key}` record. -/
def deleteFile (cfg : Config) (pathArg : String) :
    Except SpacesError Unit × List Effect :=
  deleteObjects cfg [{ Key := pathArg }]

/-- deleteFolder: list the prefix, then batch-delete whatever came back. -/
def deleteFolder (cfg : Config) (w : World) (folderPath : String) :
    Except SpacesError Unit × List Effect :=
  let lo := listPathObjects cfg w folderPath
  let d := deleteObjects cfg lo.1
  (d.1, lo.2 ++ d.2)

/-- Local filesystem contents: an association of paths to file contents. -/
abbrev LocalFS := List (String × String)

/-- Create or truncate a file (model of `fs.createWriteStream` creation
and of a completed write). -/
def setFile (fs : LocalFS) (pathArg content : String) : LocalFS :=
  (pathArg, content) :: fs.filter (fun e => e.1 != pathArg)

/-- Delete a file (`fs.unlinkSync`). -/
def removeFile (fs : LocalFS) (pathArg : String) : LocalFS :=
  fs.filter (fun e => e.1 != pathArg)

/-- Existence check on the modelled filesystem. -/
def fileExists (fs : LocalFS) (pathArg : String) : Bool :=
  fs.any (fun e => e.1 == pathArg)

/-- downloadFile: open the local write stream (creating/truncating the
file), pipe the remote read stream into it; on a read error unlink the
partial file and fail with that error; on success resolve with the local
path. Parent-directory creation touches no file, so it is a no-op on the
modelled filesystem. -/
def downloadFile (cfg : Config) (w : World) (fs : LocalFS)
    (filePathToRead filePathToSave : String)
    (createDirIfNotExists : Bool := true) :
    Except SpacesError String × LocalFS :=
  let fs1 := setFile fs filePathToSave ""
  match w.getObject filePathToRead with
  | Except.error e => (Except.error e, removeFile fs1 filePathToSave)
  | Except.ok body => (Except.ok filePathToSave, setFile fs1 filePathToSave body)

/-- Whether an effect is a cache-purge request to the CDN gateway. -/
def Effect.isPurgeReq : Effect → Bool
  | Effect.purgeCacheReq _ _ => true
  | _ => false

deriving instance DecidableEq for Except

/-- Deleting a path removes it from the modelled filesystem. -/
theorem fileExists_removeFile (fs : LocalFS) (p : String) :
    fileExists (removeFile fs p) p = false := by
  simp only [fileExists, removeFile, List.any_eq_false, List.mem_filter]
  intro x hx
  simpa using hx.2

/-- C10: deleteObjects issues exactly one batch-delete request whose key
set is the `Key` field of each input record in order (all other fields
dropped); deleteFolder's delete request carries exactly the keys returned
by the prefix listing; and deleteFile issues the same request as
deletePaths on the singleton list. -/
theorem c10_delete_requests (cfg : Config) (w : World) (objects : List S3Object)
    (pathArg folderPath : String) :
    (deleteObjects cfg objects).2 =
      [Effect.deleteObjectsReq cfg.bucket (objects.map (fun o => o.Key))] ∧
    (deleteFolder cfg w folderPath).2 =
      [Effect.listObjectsReq cfg.bucket folderPath,
       Effect.deleteObjectsReq cfg.bucket
         ((w.listObjects folderPath).map (fun o => o.Key))] ∧
    deleteFile cfg pathArg = deletePaths cfg [pathArg] :=
  ⟨rfl, rfl, rfl⟩

/-- C5: when the prefix listing is empty, deleteFolder completes without
error and every batch-delete request it issued carries an empty key set. -/
theorem c5_delete_folder_empty (cfg : Config) (w : World) (folderPath : String)
    (h : w.listObjects folderPath = []) :
    (deleteFolder cfg w folderPath).1 = Except.ok () ∧
    (∀ b ks, Effect.deleteObjectsReq b ks ∈ (deleteFolder cfg w folderPath).2 →
      ks = []) := by
  refine ⟨rfl, ?_⟩
  intro b ks hmem
  simp only [deleteFolder, listPathObjects, deleteObjects, h, List.map_nil,
    List.cons_append, List.nil_append, List.mem_cons, List.not_mem_nil,
    or_false, List.mem_singleton] at hmem
  rcases hmem with h1 | h2
  · cases h1
  · cases h2
    rfl

/-- Concrete instantiation of `c5_delete_folder_empty`: the call succeeds
and every issued batch-delete carries an empty key set. -/
theorem c5_delete_folder_empty_witness :
    (deleteFolder { endpoint := "nyc3.digitaloceanspaces.com", bucket := "b" }
        { listObjects := fun _ => [] } "folder/").1 = Except.ok () ∧
    ((deleteFolder { endpoint := "nyc3.digitaloceanspaces.com", bucket := "b" }
        { listObjects := fun _ => [] } "folder/").2.all
      (fun e => match e with
        | Effect.deleteObjectsReq _ ks => ks.isEmpty
        | _ => true)) = true := by
  have h := c5_delete_folder_empty
    { endpoint := "nyc3.digitaloceanspaces.com", bucket := "b" }
    { listObjects := fun _ => [] } "folder/" rfl
  refine ⟨h.1, ?_⟩
  simp only [List.all_eq_true]
  intro e he
  cases e with
  | putObject a b c d => rfl
  | listEndpointsReq => rfl
  | purgeCacheReq a b => rfl
  | listObjectsReq a b => rfl
  | deleteObjectsReq b ks => simp [h.2 b ks he]

/-- C9: the entries produced by listPathFiles are exactly (up to the sort)
the gateway records projected to the pair of the locator — the raw key
under `pathOnly`, its CDN URL otherwise — and that record's lastModified
timestamp. -/
theorem c9_list_projection (cfg : Config) (w : World) (pathArg : String)
    (options : ListOptions) :
    List.Perm (listPathFiles cfg w pathArg options).1
      ((w.listObjects pathArg).map (fun o =>
        { url := if options.pathOnly then o.Key else getCDNURL cfg o.Key
          lastModified := o.LastModified : FileEntry })) := by
  simpa [listPathFiles, listPathObjects, sortFilesByDate]
    using List.mergeSort_perm
      ((w.listObjects pathArg).map (fun o =>
        { url := if options.pathOnly then o.Key else getCDNURL cfg o.Key
          lastModified := o.LastModified : FileEntry }))
      (fun a b => decide (fileCompare (options.sortByDate.getD "ASC") a b ≤ 0))

/-- C7: when the remote read fails, downloadFile fails with exactly that
error and the partially written local file no longer exists. -/
theorem c7_download_error_cleanup (cfg : Config) (w : World) (fs : LocalFS)
    (filePathToRead filePathToSave : String) (createDir : Bool) (e : SpacesError)
    (h : w.getObject filePathToRead = Except.error e) :
    (downloadFile cfg w fs filePathToRead filePathToSave createDir).1 =
      Except.error e ∧
    fileExists (downloadFile cfg w fs filePathToRead filePathToSave createDir).2
      filePathToSave = false := by
  unfold downloadFile
  rw [h]
  exact ⟨rfl, fileExists_removeFile _ _⟩

/-- Concrete instantiation of `c7_download_error_cleanup`: a pre-existing
partial file at the destination is gone and the stream error surfaces. -/
theorem c7_download_error_cleanup_witness :
    (downloadFile { endpoint := "nyc3.digitaloceanspaces.com", bucket := "b" }
        { getObject := fun _ => Except.error (SpacesError.gateway "stream reset") }
        [("dir/partial.bin", "half")] "remote.bin" "dir/partial.bin" true).1 =
      Except.error (SpacesError.gateway "stream reset") ∧
    fileExists
      (downloadFile { endpoint := "nyc3.digitaloceanspaces.com", bucket := "b" }
        { getObject := fun _ => Except.error (SpacesError.gateway "stream reset") }
        [("dir/partial.bin", "half")] "remote.bin" "dir/partial.bin" true).2
      "dir/partial.bin" = false :=
  c7_download_error_cleanup _ _ _ _ _ _ _ rfl

/-- Every effect in a backoff run's trace comes from some run of the
underlying action. -/
theorem runBackOff_trace_all (P : Effect → Prop)
    (f : Store → ClientState → Except SpacesError String × Store × ClientState × List Effect)
    (h : ∀ store st, ∀ e ∈ (f store st).2.2.2, P e) :
    ∀ fuel store st, ∀ e ∈ (runBackOff f fuel store st).2.2.2, P e := by
  intro fuel
  induction fuel with
  | zero => intro store st; exact h store st
  | succ n ih =>
    intro store st e he
    simp only [runBackOff] at he
    split at he
    · rcases List.mem_append.mp he with h1 | h2
      · exact h store st e h1
      · exact ih _ _ e h2
    · exact h store st e he

/-- C8: an upload with `purgeCache` unset issues no cache-purge request,
with or without backoff, whatever the token configuration and gateway
behavior. -/
theorem c8_no_purge_when_disabled (cfg : Config) (w : World) (store : Store)
    (st : ClientState) (uploadFilePath destinationPath permission : String)
    (options : UploadOptions) (h : options.purgeCache = false) :
    ∀ e ∈ (uploadFile cfg w store st uploadFilePath destinationPath permission
      options).2.2.2, e.isPurgeReq = false := by
  have hm : ∀ store' st', ∀ e ∈ (makeUpload cfg w uploadFilePath destinationPath
      permission options.purgeCache store' st').2.2.2, e.isPurgeReq = false := by
    intro store' st' e he
    rw [h] at he
    simp only [makeUpload] at he
    split at he
    · simp only [List.mem_singleton] at he
      subst he; rfl
    · simp only [if_neg (Bool.false_ne_true), List.mem_singleton] at he
      subst he; rfl
  unfold uploadFile
  split
  · exact runBackOff_trace_all _ _ hm w.backoffRetries store st
  · exact hm store st

/-- Concrete instantiation of `c8_no_purge_when_disabled`: an upload with
default options on a token-configured client issues no purge request. -/
theorem c8_no_purge_when_disabled_witness :
    ((uploadFile
      { endpoint := "nyc3.digitaloceanspaces.com", bucket := "b",
        digitalOceanAPIToken := some "do-token" }
      { cdnEndpoints := [{ id := "ep-1", origin := "b.nyc3.cdn.digitaloceanspaces.com" }] }
      {} {} "local/a.png" "a.png" "public" {}).2.2.2.all
      (fun e => !e.isPurgeReq)) = true := by
  have h := c8_no_purge_when_disabled
    { endpoint := "nyc3.digitaloceanspaces.com", bucket := "b",
      digitalOceanAPIToken := some "do-token" }
    { cdnEndpoints := [{ id := "ep-1", origin := "b.nyc3.cdn.digitaloceanspaces.com" }] }
    {} {} "local/a.png" "a.png" "public" {} rfl
  simp only [List.all_eq_true, Bool.not_eq_true']
  exact fun e he => h e he

/-- With `purgeCache` set, a successful put on a client lacking the API
token yields the configuration error, with the write retained. -/
theorem makeUpload_purge_no_token (cfg : Config) (w : World)
    (uploadFilePath destinationPath permission : String) (store : Store)
    (st : ClientState) (htok : strTruthy cfg.digitalOceanAPIToken = false)
    (hput : w.putError = none) :
    makeUpload cfg w uploadFilePath destinationPath permission true store st =
      (Except.error SpacesError.noAPIToken,
       { objects := destinationPath :: store.objects }, st,
       [Effect.putObject cfg.bucket destinationPath (aclOf permission)
          (w.mime uploadFilePath)]) := by
  simp [makeUpload, getCDNEndpointId, hput, htok]

/-- Backoff over the failing purge-after-put action: every attempt fails
with the configuration error, and the destination key stays written. -/
theorem runBackOff_purge_no_token (cfg : Config) (w : World)
    (uploadFilePath destinationPath permission : String)
    (htok : strTruthy cfg.digitalOceanAPIToken = false)
    (hput : w.putError = none) :
    ∀ fuel store st,
      (runBackOff (makeUpload cfg w uploadFilePath destinationPath permission true)
        fuel store st).1 = Except.error SpacesError.noAPIToken ∧
      destinationPath ∈ (runBackOff
        (makeUpload cfg w uploadFilePath destinationPath permission true)
        fuel store st).2.1.objects := by
  intro fuel
  induction fuel with
  | zero =>
    intro store st
    rw [runBackOff,
      makeUpload_purge_no_token cfg w uploadFilePath destinationPath permission
        store st htok hput]
    exact ⟨rfl, List.mem_cons_self _ _⟩
  | succ n ih =>
    intro store st
    rw [runBackOff,
      makeUpload_purge_no_token cfg w uploadFilePath destinationPath permission
        store st htok hput]
    exact ih _ _

/-- C1: an upload with `purgeCache` on a client configured without a CDN
API token fails with the configuration error although the put succeeded,
and the written object persists in the bucket (no rollback), with or
without backoff. -/
theorem c1_upload_purge_no_token (cfg : Config) (w : World) (store : Store)
    (st : ClientState) (uploadFilePath destinationPath permission : String)
    (options : UploadOptions) (hpc : options.purgeCache = true)
    (htok : strTruthy cfg.digitalOceanAPIToken = false)
    (hput : w.putError = none) :
    (uploadFile cfg w store st uploadFilePath destinationPath permission
      options).1 = Except.error SpacesError.noAPIToken ∧
    destinationPath ∈ (uploadFile cfg w store st uploadFilePath destinationPath
      permission options).2.1.objects := by
  unfold uploadFile
  rw [hpc]
  split
  · exact runBackOff_purge_no_token cfg w uploadFilePath destinationPath
      permission htok hput w.backoffRetries store st
  · rw [makeUpload_purge_no_token cfg w uploadFilePath destinationPath permission
      store st htok hput]
    exact ⟨rfl, List.mem_cons_self _ _⟩

/-- Concrete instantiation of `c1_upload_purge_no_token`, with backoff. -/
theorem c1_upload_purge_no_token_witness :
    (uploadFile { endpoint := "nyc3.digitaloceanspaces.com", bucket := "b" } {}
      {} {} "local/a.png" "a.png" "private"
      { exponentialBackoff := true, purgeCache := true }).1 =
      Except.error SpacesError.noAPIToken ∧
    "a.png" ∈ (uploadFile { endpoint := "nyc3.digitaloceanspaces.com", bucket := "b" }
      {} {} {} "local/a.png" "a.png" "private"
      { exponentialBackoff := true, purgeCache := true }).2.1.objects :=
  c1_upload_purge_no_token _ _ _ _ _ _ _ _ rfl rfl rfl

/-- C3 counterexample: on a token-configured client, when the gateway
lists a matching endpoint whose id is the empty string, both calls return
that identifier but the falsy cache check re-issues the endpoint-listing
request, so two listing requests are made — refuting "at most one
endpoint-listing request across both calls". -/
theorem c3_memoization_counterexample :
    (getCDNEndpointIdTwice
      { endpoint := "nyc3.digitaloceanspaces.com", bucket := "mybucket",
        digitalOceanAPIToken := some "do-token" }
      { cdnEndpoints :=
          [{ id := "", origin := "mybucket.nyc3.cdn.digitaloceanspaces.com" }] }
      {}).1.1 = Except.ok "" ∧
    (getCDNEndpointIdTwice
      { endpoint := "nyc3.digitaloceanspaces.com", bucket := "mybucket",
        digitalOceanAPIToken := some "do-token" }
      { cdnEndpoints :=
          [{ id := "", origin := "mybucket.nyc3.cdn.digitaloceanspaces.com" }] }
      {}).1.2 = Except.ok "" ∧
    ¬ ((getCDNEndpointIdTwice
      { endpoint := "nyc3.digitaloceanspaces.com", bucket := "mybucket",
        digitalOceanAPIToken := some "do-token" }
      { cdnEndpoints :=
          [{ id := "", origin := "mybucket.nyc3.cdn.digitaloceanspaces.com" }] }
      {}).2.2.count Effect.listEndpointsReq ≤ 1) := by
  refine ⟨rfl, rfl, by decide⟩

/-- C3 (amended): when the first call resolves a non-empty identifier, a
second call returns the identical identifier and the two calls together
issue at most one endpoint-listing request. -/
theorem c3_memoization_amended (cfg : Config) (w : World) (st : ClientState)
    (epId : String) (h1 : (getCDNEndpointId cfg w st).1 = Except.ok epId)
    (hid : epId ≠ "") :
    (getCDNEndpointIdTwice cfg w st).1.1 = Except.ok epId ∧
    (getCDNEndpointIdTwice cfg w st).1.2 = Except.ok epId ∧
    (getCDNEndpointIdTwice cfg w st).2.2.count Effect.listEndpointsReq ≤ 1 := by
  unfold getCDNEndpointIdTwice
  cases htok : strTruthy cfg.digitalOceanAPIToken with
  | false => simp [getCDNEndpointId, htok] at h1
  | true =>
    cases hcache : strTruthy st.cdnEndpointId with
    | true =>
      simp only [getCDNEndpointId, htok, Bool.not_true, Bool.false_eq_true,
        if_false, hcache, if_true] at h1 ⊢
      exact ⟨h1, h1, by simp⟩
    | false =>
      cases hfind : w.cdnEndpoints.find?
          (fun ep => cfg.bucket == leadingLabel ep.origin) with
      | none => simp [getCDNEndpointId, htok, hcache, hfind] at h1
      | some ep =>
        simp only [getCDNEndpointId, htok, Bool.not_true, Bool.false_eq_true,
          if_false, hcache, hfind] at h1 ⊢
        have hep : ep.id = epId := by
          simpa using h1
        simp [hep, strTruthy, hid]

/-- Concrete instantiation of `c3_memoization_amended`: non-empty resolved
id, identical results, one listing request. -/
theorem c3_memoization_amended_witness :
    (getCDNEndpointIdTwice
      { endpoint := "nyc3.digitaloceanspaces.com", bucket := "mybucket",
        digitalOceanAPIToken := some "do-token" }
      { cdnEndpoints :=
          [{ id := "ep-1", origin := "mybucket.nyc3.cdn.digitaloceanspaces.com" }] }
      {}).1.1 = Except.ok "ep-1" ∧
    (getCDNEndpointIdTwice
      { endpoint := "nyc3.digitaloceanspaces.com", bucket := "mybucket",
        digitalOceanAPIToken := some "do-token" }
      { cdnEndpoints :=
          [{ id := "ep-1", origin := "mybucket.nyc3.cdn.digitaloceanspaces.com" }] }
      {}).1.2 = Except.ok "ep-1" ∧
    (getCDNEndpointIdTwice
      { endpoint := "nyc3.digitaloceanspaces.com", bucket := "mybucket",
        digitalOceanAPIToken := some "do-token" }
      { cdnEndpoints :=
          [{ id := "ep-1", origin := "mybucket.nyc3.cdn.digitaloceanspaces.com" }] }
      {}).2.2.count Effect.listEndpointsReq ≤ 1 :=
  c3_memoization_amended _ _ _ "ep-1" rfl (by decide)

/-- C4: getCDNEndpointId fails with the configuration error whenever the
API token is (truthily) absent; otherwise, with no (truthy) cached id, it
issues the endpoint-listing request and returns — caching it — the id of
the found endpoint, whose origin's leading subdomain label equals the
bucket name, and fails with the not-found error when no endpoint
matches. -/
theorem c4_endpoint_resolution (cfg : Config) (w : World) (st : ClientState) :
    (strTruthy cfg.digitalOceanAPIToken = false →
      getCDNEndpointId cfg w st = (Except.error SpacesError.noAPIToken, st, [])) ∧
    (strTruthy cfg.digitalOceanAPIToken = true →
      strTruthy st.cdnEndpointId = false →
      (∀ ep, w.cdnEndpoints.find?
          (fun e => cfg.bucket == leadingLabel e.origin) = some ep →
        getCDNEndpointId cfg w st =
          (Except.ok ep.id, { cdnEndpointId := some ep.id },
            [Effect.listEndpointsReq]) ∧
        cfg.bucket = leadingLabel ep.origin) ∧
      (w.cdnEndpoints.find?
          (fun e => cfg.bucket == leadingLabel e.origin) = none →
        getCDNEndpointId cfg w st =
          (Except.error (SpacesError.noCDNEndpointFound cfg.bucket), st,
            [Effect.listEndpointsReq]))) := by
  refine ⟨?_, ?_⟩
  · intro h
    simp [getCDNEndpointId, h]
  · intro htok hcache
    refine ⟨?_, ?_⟩
    · intro ep hfind
      refine ⟨by simp [getCDNEndpointId, htok, hcache, hfind], ?_⟩
      have hp := List.find?_some hfind
      simpa using hp
    · intro hfind
      simp [getCDNEndpointId, htok, hcache, hfind]

/-- Concrete instantiation of `c4_endpoint_resolution`: the matching
endpoint's id is returned and cached, and its origin's leading label is
the bucket name. -/
theorem c4_endpoint_resolution_witness :
    getCDNEndpointId
      { endpoint := "nyc3.digitaloceanspaces.com", bucket := "mybucket",
        digitalOceanAPIToken := some "do-token" }
      { cdnEndpoints :=
          [{ id := "ep-1", origin := "mybucket.nyc3.cdn.digitaloceanspaces.com" }] }
      {} =
      (Except.ok "ep-1", { cdnEndpointId := some "ep-1" },
        [Effect.listEndpointsReq]) ∧
    "mybucket" = leadingLabel "mybucket.nyc3.cdn.digitaloceanspaces.com" :=
  ((c4_endpoint_resolution
    { endpoint := "nyc3.digitaloceanspaces.com", bucket := "mybucket",
      digitalOceanAPIToken := some "do-token" }
    { cdnEndpoints :=
        [{ id := "ep-1", origin := "mybucket.nyc3.cdn.digitaloceanspaces.com" }] }
    {}).2 rfl rfl).1
    { id := "ep-1", origin := "mybucket.nyc3.cdn.digitaloceanspaces.com" } rfl

/-- Stripping a literal prefix from the prefixed list recovers the tail. -/
theorem dropPfx_append (p s : List Char) : dropPfx p (p ++ s) = some s := by
  induction p with
  | nil => rfl
  | cons c cs ih => simp [dropPfx, ih]

/-- Splitting at the first slash of `xs ++ '/' :: ys` for slash-free `xs`. -/
theorem splitHostPath_append (xs ys : List Char) (h : '/' ∉ xs) :
    splitHostPath (xs ++ '/' :: ys) = (xs, '/' :: ys) := by
  induction xs with
  | nil => simp [splitHostPath]
  | cons c cs ih =>
    simp only [List.mem_cons, not_or] at h
    simp [splitHostPath, Ne.symm h.1, ih h.2]

/-- Parsing an `https://` URL with a slash-free host recovers the
components. -/
theorem parseHttpsURL_full (host pathTail : String) (h : '/' ∉ host.data) :
    parseHttpsURL ("https://" ++ host ++ "/" ++ pathTail) =
      { scheme := "https", host := host, pathname := "/" ++ pathTail } := by
  unfold parseHttpsURL
  have hdata : ("https://" ++ host ++ "/" ++ pathTail).data =
      "https://".data ++ (host.data ++ '/' :: pathTail.data) := by
    simp [String.data_append]
  rw [hdata, dropPfx_append]
  simp only
  rw [splitHostPath_append host.data pathTail.data h]
  simp only [List.isEmpty_cons]
  constructor

/-- C6: getCDNURL — a pure function of the configuration and the path —
keeps the scheme and path of getURL and replaces the host with the custom
CDN host when one is (truthily) configured and with the fixed default host
otherwise, for configurations whose bucket, endpoint and custom host are
slash-free (the shapes a hostname can take). -/
theorem c6_cdn_url (cfg : Config) (pathArg : String)
    (hb : '/' ∉ cfg.bucket.data) (he : '/' ∉ cfg.endpoint.data)
    (hc : ∀ s, cfg.customCdnHost = some s → '/' ∉ s.data) :
    (parseHttpsURL (getCDNURL cfg pathArg)).scheme =
      (parseHttpsURL (getURL cfg pathArg)).scheme ∧
    (parseHttpsURL (getCDNURL cfg pathArg)).pathname =
      (parseHttpsURL (getURL cfg pathArg)).pathname ∧
    (parseHttpsURL (getCDNURL cfg pathArg)).host =
      (if strTruthy cfg.customCdnHost then cfg.customCdnHost.getD ""
       else "cdn.digitaloceanspaces") ∧
    getCDNURL cfg pathArg =
      "https://" ++ (if strTruthy cfg.customCdnHost then cfg.customCdnHost.getD ""
        else "cdn.digitaloceanspaces") ++ "/" ++ pathArg := by
  have hnh : '/' ∉ (if strTruthy cfg.customCdnHost then cfg.customCdnHost.getD ""
      else "cdn.digitaloceanspaces").data := by
    cases hcc : cfg.customCdnHost with
    | none => simp [strTruthy, hcc]
    | some s =>
      by_cases hs : strTruthy (some s)
      · simpa [hcc, hs] using hc s hcc
      · simp [hcc, hs]
  have hbe : '/' ∉ (cfg.bucket ++ "." ++ cfg.endpoint).data := by
    simp only [String.data_append, List.mem_append, not_or]
    refine ⟨⟨hb, ?_⟩, he⟩
    decide
  have hu : getURL cfg pathArg =
      "https://" ++ (cfg.bucket ++ "." ++ cfg.endpoint) ++ "/" ++ pathArg := by
    simp [getURL, String.append_assoc]
  have h1 := parseHttpsURL_full (cfg.bucket ++ "." ++ cfg.endpoint) pathArg hbe
  have hcdn : getCDNURL cfg pathArg =
      "https://" ++ (if strTruthy cfg.customCdnHost then cfg.customCdnHost.getD ""
        else "cdn.digitaloceanspaces") ++ "/" ++ pathArg := by
    simp only [getCDNURL, hu, h1, hrefOf]
    apply String.ext
    simp [String.data_append]
  have h2 := parseHttpsURL_full
    (if strTruthy cfg.customCdnHost then cfg.customCdnHost.getD ""
      else "cdn.digitaloceanspaces") pathArg hnh
  rw [hcdn, hu, h1, h2]
  refine ⟨rfl, rfl, rfl, by rw [String.append_assoc]⟩

/-- Concrete instantiation of `c6_cdn_url` with a configured custom CDN
host. -/
theorem c6_cdn_url_witness :
    (parseHttpsURL (getCDNURL
      { endpoint := "nyc3.digitaloceanspaces.com", bucket := "b",
        customCdnHost := some "cdn.example.com" } "img/a.png")).scheme =
      (parseHttpsURL (getURL
        { endpoint := "nyc3.digitaloceanspaces.com", bucket := "b",
          customCdnHost := some "cdn.example.com" } "img/a.png")).scheme ∧
    (parseHttpsURL (getCDNURL
      { endpoint := "nyc3.digitaloceanspaces.com", bucket := "b",
        customCdnHost := some "cdn.example.com" } "img/a.png")).pathname =
      (parseHttpsURL (getURL
        { endpoint := "nyc3.digitaloceanspaces.com", bucket := "b",
          customCdnHost := some "cdn.example.com" } "img/a.png")).pathname ∧
    (parseHttpsURL (getCDNURL
      { endpoint := "nyc3.digitaloceanspaces.com", bucket := "b",
        customCdnHost := some "cdn.example.com" } "img/a.png")).host =
      (if strTruthy (some "cdn.example.com") then
        (some "cdn.example.com").getD "" else "cdn.digitaloceanspaces") ∧
    getCDNURL
      { endpoint := "nyc3.digitaloceanspaces.com", bucket := "b",
        customCdnHost := some "cdn.example.com" } "img/a.png" =
      "https://" ++ (if strTruthy (some "cdn.example.com") then
        (some "cdn.example.com").getD "" else "cdn.digitaloceanspaces") ++
        "/" ++ "img/a.png" :=
  c6_cdn_url _ _ (by decide) (by decide)
    (fun s hs => by cases hs; decide)

/-- Transitivity of the boolean order induced by the comparator. -/
theorem fileCompare_trans (s : String) (a b c : FileEntry)
    (hab : decide (fileCompare s a b ≤ 0) = true)
    (hbc : decide (fileCompare s b c ≤ 0) = true) :
    decide (fileCompare s a c ≤ 0) = true := by
  by_cases h : s == "DESC"
  · simp only [fileCompare, if_pos h, decide_eq_true_eq] at *
    omega
  · simp only [fileCompare, if_neg h, decide_eq_true_eq] at *
    omega

/-- Totality of the boolean order induced by the comparator. -/
theorem fileCompare_total (s : String) (a b : FileEntry) :
    (decide (fileCompare s a b ≤ 0) || decide (fileCompare s b a ≤ 0)) = true := by
  by_cases h : s == "DESC" <;> simp only [fileCompare, h, if_pos, if_neg,
    Bool.or_eq_true, decide_eq_true_eq, if_true, if_false, Bool.false_eq_true] <;>
    omega

/-- The sorted list is ordered under the comparator-induced relation. -/
theorem sortFilesByDate_sorted (l : List FileEntry) (s : String) :
    (sortFilesByDate l s).Pairwise
      (fun a b => decide (fileCompare s a b ≤ 0) = true) := by
  unfold sortFilesByDate
  exact List.sorted_mergeSort (fun a b c => fileCompare_trans s a b c)
    (fun a b => fileCompare_total s a b) l

/-- Stability of `sortFilesByDate`: the entries carrying any fixed
timestamp appear in the output exactly as they appeared in the input. -/
theorem sortFilesByDate_filter_ts (l : List FileEntry) (s : String) (t : Int) :
    (sortFilesByDate l s).filter (fun e => e.lastModified == t) =
      l.filter (fun e => e.lastModified == t) := by
  unfold sortFilesByDate
  have hpw : (l.filter (fun e => e.lastModified == t)).Pairwise
      (fun a b => decide (fileCompare s a b ≤ 0) = true) := by
    apply List.pairwise_of_forall_mem_list
    intro a ha b hb
    have ha2 : a.lastModified = t := by
      simpa using (List.mem_filter.mp ha).2
    have hb2 : b.lastModified = t := by
      simpa using (List.mem_filter.mp hb).2
    by_cases h : s == "DESC" <;> simp [fileCompare, h, ha2, hb2]
  have hsub : List.Sublist (l.filter (fun e => e.lastModified == t))
      (l.mergeSort (fun a b => decide (fileCompare s a b ≤ 0))) :=
    List.sublist_mergeSort (fun a b c => fileCompare_trans s a b c)
      (fun a b => fileCompare_total s a b) hpw (List.filter_sublist l)
  have hsub2 : List.Sublist (l.filter (fun e => e.lastModified == t))
      ((l.mergeSort (fun a b => decide (fileCompare s a b ≤ 0))).filter
        (fun e => e.lastModified == t)) := by
    have h2 := hsub.filter (fun e => e.lastModified == t)
    simpa [List.filter_filter] using h2
  have hlen : ((l.mergeSort (fun a b => decide (fileCompare s a b ≤ 0))).filter
      (fun e => e.lastModified == t)).length =
      (l.filter (fun e => e.lastModified == t)).length :=
    ((List.mergeSort_perm l (fun a b => decide (fileCompare s a b ≤ 0))).filter
      (fun e => e.lastModified == t)).length_eq
  exact (hsub2.eq_of_length hlen.symm).symm

/-- C2: listPathFiles sorts by the lastModified timestamp — non-decreasing
unless `sortByDate` is exactly `'DESC'` (any other value, or an absent
option, sorts ascending), non-increasing for `'DESC'` — and is stable:
entries with equal timestamps keep the gateway-returned relative order. -/
theorem c2_list_sorting (cfg : Config) (w : World) (pathArg : String)
    (options : ListOptions) :
    (options.sortByDate ≠ some "DESC" →
      (listPathFiles cfg w pathArg options).1.Pairwise
        (fun a b => a.lastModified ≤ b.lastModified)) ∧
    (options.sortByDate = some "DESC" →
      (listPathFiles cfg w pathArg options).1.Pairwise
        (fun a b => b.lastModified ≤ a.lastModified)) ∧
    (∀ t : Int, (listPathFiles cfg w pathArg options).1.filter
        (fun e => e.lastModified == t) =
      ((w.listObjects pathArg).map (fun o =>
        { url := if options.pathOnly then o.Key else getCDNURL cfg o.Key
          lastModified := o.LastModified : FileEntry })).filter
        (fun e => e.lastModified == t)) := by
  have hL : (listPathFiles cfg w pathArg options).1 =
      sortFilesByDate ((w.listObjects pathArg).map (fun o =>
        { url := if options.pathOnly then o.Key else getCDNURL cfg o.Key
          lastModified := o.LastModified : FileEntry }))
        (options.sortByDate.getD "ASC") := rfl
  refine ⟨?_, ?_, ?_⟩
  · intro h
    have hs : ((options.sortByDate.getD "ASC") == "DESC") = false := by
      cases ho : options.sortByDate with
      | none => simp
      | some x =>
        simp only [Option.getD_some]
        exact beq_eq_false_iff_ne.mpr (fun hx => h (by rw [ho, hx]))
    rw [hL]
    refine (sortFilesByDate_sorted _ _).imp ?_
    intro a b hab
    simp only [fileCompare, hs, Bool.false_eq_true, if_false,
      decide_eq_true_eq] at hab
    omega
  · intro h
    have hs : ((options.sortByDate.getD "ASC") == "DESC") = true := by
      simp [h]
    rw [hL]
    refine (sortFilesByDate_sorted _ _).imp ?_
    intro a b hab
    simp only [fileCompare, hs, if_true] at hab
    simp only [decide_eq_true_eq] at hab
    omega
  · intro t
    rw [hL]
    exact sortFilesByDate_filter_ts _ _ t

/-- Concrete instantiation of `c2_list_sorting`: an unrecognized sort
value sorts ascending. -/
theorem c2_list_sorting_witness :
    (listPathFiles { endpoint := "nyc3.digitaloceanspaces.com", bucket := "b" }
      { listObjects := fun _ =>
          [{ Key := "x", LastModified := 5 }, { Key := "y", LastModified := 1 }] }
      "p" { sortByDate := some "oldest-first" }).1.Pairwise
      (fun a b => a.lastModified ≤ b.lastModified) :=
  (c2_list_sorting _ _ _ _).1 (by decide)
